import Mathlib

/-!
Verification of the two utility scripts of this repository:
Pipeline A (`audiobook-processor.py`) and Pipeline B (`gather_source_code.py`).
Numeric values that are Python floats in the source are modelled as rationals;
Python's binary `%` on positive floats is `x - y * floor (x / y)`.
-/

/-- Python float modulo for the operand signs used by the source
(`x % y = x - y * floor (x / y)`). -/
def pymod (x y : ℚ) : ℚ := x - y * (⌊x / y⌋ : ℤ)

/-- `chunk_seconds = chunk_duration * 60` (source line 61). -/
def chunk_seconds (chunk_duration : ℤ) : ℤ := chunk_duration * 60

/-- The integers of Python's `range(a, b)`, in order. -/
def rangeZ (a b : ℤ) : List ℤ := (List.range (b - a).toNat).map (fun (k : ℕ) => a + (k : ℤ))

/-- One planned chunk: loop index `i` gives `index = i + 1` (the 1-based number
used in the output filename), `start_time = i * chunk_seconds`,
`duration = min(chunk_seconds, total_duration - start_time)` (source lines 72-73). -/
structure Chunk where
  index : ℤ
  start_time : ℚ
  duration : ℚ
deriving DecidableEq, Repr

/-- `total_chunks = ceil(total_duration / chunk_seconds)`, then clamped by
`min(total_chunks, start_chunk + max_chunks - 1)` when `max_chunks` is given
(source lines 62-65). -/
def totalChunks (T : ℚ) (chunk_duration start_chunk : ℤ) (max_chunks : Option ℤ) : ℤ :=
  let tc := ⌈T / ((chunk_seconds chunk_duration : ℤ) : ℚ)⌉
  match max_chunks with
  | none => tc
  | some m => min tc (start_chunk + m - 1)

/-- The ordered chunk plan: one record per loop index
`i ∈ range(start_chunk - 1, total_chunks)` (source lines 71-73). -/
def chunkPlan (T : ℚ) (chunk_duration start_chunk : ℤ) (max_chunks : Option ℤ) : List Chunk :=
  let cs : ℚ := ((chunk_seconds chunk_duration : ℤ) : ℚ)
  (rangeZ (start_chunk - 1) (totalChunks T chunk_duration start_chunk max_chunks)).map
    (fun i => { index := i + 1, start_time := (i : ℚ) * cs, duration := min cs (T - (i : ℚ) * cs) })

/-- Speed-factor validation (source line 90):
`(speed_factor <= 0.0) or ((1 / speed_factor % 2) <= 0.0)`. -/
def speedInvalid (s : ℚ) : Bool := decide (s ≤ 0) || decide (pymod (1 / s) 2 ≤ 0)

/-- The atempo chain built when `speed_factor != 1.0` (source lines 94-106),
as the ordered list of elementary multipliers. -/
def tempoChain (s : ℚ) : List ℚ :=
  if 2 < s then
    List.replicate (⌊s / 2⌋).toNat 2 ++ [pymod s 2]
  else if s < 1 / 2 then
    List.replicate (⌊2 / s⌋).toNat (1 / 2) ++ [1 / pymod (1 / s) 2]
  else
    [s]

/-- The audio filter argument of one transform invocation: omitted when
`speed_factor == 1.0`, otherwise the compiled chain (source lines 94, 106). -/
def filterOf (s : ℚ) : Option (List ℚ) := if s = 1 then none else some (tempoChain s)

/-- Observable events of one run: logged messages and external transform
invocations (one per executed ffmpeg chunk command). -/
inductive Event where
  | log (msg : String)
  | transform (c : Chunk) (filter : Option (List ℚ))
deriving DecidableEq, Repr

/-- Message printed when the duration probe returned zero (source line 58). -/
def durAbortMsg : String := "Cannot determine total audiobook duration, make sure the file is valid."

/-- Message printed when the speed-factor validation fails (source line 91). -/
def speedAbortMsg : String := "Speed factor is too small, operation aborted."

/-- Message printed when one chunk's external invocation fails (source line 130). -/
def chunkErrMsg : String := "Error processing chunk"

/-- The per-chunk loop body (source lines 71-131): each iteration first
evaluates the speed-factor validation (aborting the whole run on failure),
then runs one transform; a failing transform logs and the loop continues.
`fails` is the oracle saying which external invocations fail. -/
def runChunks (s : ℚ) (fails : ℤ → Bool) : List Chunk → List Event
  | [] => []
  | c :: rest =>
      if speedInvalid s then [Event.log speedAbortMsg]
      else
        Event.transform c (filterOf s) ::
          (if fails c.index then Event.log chunkErrMsg :: runChunks s fails rest
           else runChunks s fails rest)

/-- `process_audiobook` after the duration probe: `T` is the probe's result;
`T == 0` aborts before planning (source lines 56-59), otherwise the plan is
executed chunk by chunk. -/
def processAudiobook (T : ℚ) (chunk_duration : ℤ) (s : ℚ) (start_chunk : ℤ)
    (max_chunks : Option ℤ) (fails : ℤ → Bool) : List Event :=
  if T = 0 then [Event.log durAbortMsg]
  else runChunks s fails (chunkPlan T chunk_duration start_chunk max_chunks)

/-- Outcome of `get_duration`: a returned value, or an unhandled exception
raised by `float(...)` on unparseable output. -/
inductive ProbeOutcome where
  | ok (seconds : ℚ)
  | raise
deriving DecidableEq, Repr

/-- Python's `str.rstrip()`: remove trailing whitespace. -/
def rstrip (s : String) : String :=
  String.mk ((s.toList.reverse.dropWhile Char.isWhitespace).reverse)

/-- `get_duration` (source lines 9-25) over the external tool's captured
`stdout`/`stderr`; `parse` is Python's builtin `float`, external to the
repository, returning `none` where `float(...)` would raise `ValueError`.
Returns the outcome paired with the printed messages (the "Total duration"
print precedes the `float(...)` call, so it also appears on the raise path). -/
def get_duration (stdout stderr : String) (parse : String → Option ℚ) :
    ProbeOutcome × List String :=
  if rstrip stdout ≠ "" then
    match parse (rstrip stdout) with
    | some d => (ProbeOutcome.ok d, ["Total duration: " ++ rstrip stdout ++ " seconds"])
    | none => (ProbeOutcome.raise, ["Total duration: " ++ rstrip stdout ++ " seconds"])
  else if stderr ≠ "" then (ProbeOutcome.ok 0, ["Error: " ++ stderr])
  else (ProbeOutcome.ok 0, [])

/-! Pipeline B: `gather_source_code.py`. -/

/-- Lower-case a string character by character (Python's `str.lower` on the
ASCII extensions involved here). -/
def lowerStr (s : String) : String := String.mk (s.toList.map Char.toLower)

/-- The final path component (the part after the last slash). -/
def pathName (p : String) : String :=
  String.mk ((p.toList.reverse.takeWhile (fun c => c ≠ '/')).reverse)

/-- `pathlib.Path(p).suffix`: the extension of the final component, nonempty
exactly when the last dot of the name sits at an index `i` with
`0 < i < len - 1` (so hidden names like `.py` and trailing-dot names have
no suffix). -/
def pathSuffix (p : String) : String :=
  let cs := (pathName p).toList
  match List.findIdx? (fun c => c == '.') cs.reverse with
  | none => ""
  | some rk =>
      let i := cs.length - 1 - rk
      if 0 < i ∧ i < cs.length - 1 then String.mk (cs.drop i) else ""

/-- The extension found by `posixpath.splitext` (used inside
`mimetypes.guess_type`): the part of the final component from its last dot,
provided some non-dot character comes before that dot. -/
def splitextExt (p : String) : String :=
  let cs := (pathName p).toList
  match List.findIdx? (fun c => c == '.') cs.reverse with
  | none => ""
  | some rk =>
      let j := cs.length - 1 - rk
      if (cs.take j).any (fun c => c ≠ '.') then String.mk (cs.drop j) else ""

/-- `mimetypes.guess_type` (Python stdlib, external collaborator): looks the
`splitext` extension up in its type table, exact match first, then
lower-cased. The table is a parameter (the stdlib's built-in map). -/
def guess_type (p : String) (table : List (String × String)) : Option String :=
  match table.lookup (splitextExt p) with
  | some m => some m
  | none => table.lookup (lowerStr (splitextExt p))

/-- `is_text_file` (source lines 6-17): extension (lower-cased pathlib
suffix) in the allow-list, else a `text/`-typed content-type guess.
The decision is a function of the path alone — no file contents appear. -/
def is_text_file (filepath : String) (text_extensions : List String)
    (table : List (String × String)) : Bool :=
  let ext := lowerStr (pathSuffix filepath)
  if ext ∈ text_extensions then true
  else
    match guess_type filepath table with
    | some mime_type => List.isPrefixOf "text/".toList mime_type.toList
    | none => false

/-- The fixed allow-list defined in `main` (source lines 57-62). -/
def text_extensions_main : List String :=
  [".h", ".cpp", ".cs", ".py", ".json", ".xml", ".txt", ".md",
   ".ini", ".config", ".yaml", ".yml", ".uplugin", ".build",
   ".html", ".css", ".js", ".java", ".swift", ".m", ".mm",
   ".sh", ".bat", ".cmd", ".ps1", ".gradle", ".properties"]

/-- A fragment of the Python stdlib's built-in content-type table, enough
for the concrete cases below. -/
def std_types_table : List (String × String) :=
  [(".py", "text/x-python"), (".md", "text/markdown"),
   (".json", "application/json"), (".exe", "application/x-msdownload"),
   (".bin", "application/octet-stream")]

/-- Outcome of trying to read one input file as UTF-8 text:
success with its content, a `UnicodeDecodeError` raised by `infile.read()`,
or any other error raised when opening the file. -/
inductive ReadOutcome where
  | ok (content : String)
  | decodeError
  | openError (msg : String)
deriving DecidableEq, Repr

/-- Header line written for one file (source line 42). -/
def fileBlockHeader (p : String) : String := "// Filepath: " ++ p ++ "\n\n\n"

/-- Fence opener (source line 43). -/
def fenceOpen : String := "```\n"

/-- Fence closer and trailing blank lines (source line 49). -/
def fenceClose : String := "\n```\n\n\n"

/-- What one iteration of `create_combined_file`'s loop (source lines 39-53)
appends to the output, paired with its printed messages. The header and the
fence opener are written before `infile.read()` is evaluated, so a
`UnicodeDecodeError` leaves them in the output with no content and no
closer; an error at `open` leaves nothing. -/
def writeOne (p : String) (r : ReadOutcome) : String × List String :=
  match r with
  | ReadOutcome.ok c => (fileBlockHeader p ++ fenceOpen ++ c ++ fenceClose, [])
  | ReadOutcome.decodeError =>
      (fileBlockHeader p ++ fenceOpen,
       ["Warning: Could not read " ++ p ++ " as text. Skipping."])
  | ReadOutcome.openError m => ("", ["Error processing " ++ p ++ ": " ++ m])

/-- `create_combined_file` (source lines 33-53) over the list of input files,
each paired with the outcome of reading it: the full output text and the
printed messages, in order. -/
def create_combined_file (files : List (String × ReadOutcome)) : String × List String :=
  files.foldl
    (fun acc pr =>
      ((acc.1 ++ (writeOne pr.1 pr.2).1, acc.2 ++ (writeOne pr.1 pr.2).2) : String × List String))
    ("", [])

/-! Helper lemmas about the loop range and the chunk plan. -/

theorem rangeZ_length (a b : ℤ) : (rangeZ a b).length = (b - a).toNat := by
  simp only [rangeZ, List.length_map, List.length_range]

theorem rangeZ_getElem (a b : ℤ) (k : ℕ) (hk : k < (rangeZ a b).length) :
    (rangeZ a b)[k] = a + k := by
  simp only [rangeZ, List.getElem_map, List.getElem_range]

theorem mem_rangeZ {a b i : ℤ} : i ∈ rangeZ a b ↔ a ≤ i ∧ i < b := by
  unfold rangeZ
  rw [List.mem_map]
  constructor
  · rintro ⟨k, hk, rfl⟩
    rw [List.mem_range] at hk
    omega
  · rintro ⟨h1, h2⟩
    refine ⟨(i - a).toNat, ?_, ?_⟩
    · rw [List.mem_range]
      omega
    · omega

theorem chunkPlan_length (T : ℚ) (cd sc : ℤ) (mc : Option ℤ) :
    (chunkPlan T cd sc mc).length = (totalChunks T cd sc mc - (sc - 1)).toNat := by
  simp only [chunkPlan, List.length_map, rangeZ_length]

theorem chunkPlan_getElem (T : ℚ) (cd sc : ℤ) (mc : Option ℤ) (k : ℕ)
    (hk : k < (chunkPlan T cd sc mc).length) :
    (chunkPlan T cd sc mc)[k] =
      { index := sc + k,
        start_time := ((sc - 1 + k : ℤ) : ℚ) * ((chunk_seconds cd : ℤ) : ℚ),
        duration := min ((chunk_seconds cd : ℤ) : ℚ)
          (T - ((sc - 1 + k : ℤ) : ℚ) * ((chunk_seconds cd : ℤ) : ℚ)) } := by
  have hk2 : k < (rangeZ (sc - 1) (totalChunks T cd sc mc)).length := by
    simpa [chunkPlan] using hk
  simp only [chunkPlan, List.getElem_map, rangeZ_getElem, Chunk.mk.injEq, and_true, true_and,
    eq_self_iff_true]
  omega

theorem totalChunks_le_ceil (T : ℚ) (cd sc : ℤ) (mc : Option ℤ) :
    totalChunks T cd sc mc ≤ ⌈T / ((chunk_seconds cd : ℤ) : ℚ)⌉ := by
  cases mc with
  | none => simp [totalChunks]
  | some m => simp [totalChunks]

/-- Claim C1: for every total_duration > 0 and chunk_duration > 0, with
start_chunk = 1 and no max_chunks, the chunk planner produces exactly
ceil(total_duration / chunk_seconds) records whose k-th (0-based) record has
start_time = k * chunk_seconds and duration = min(chunk_seconds,
total_duration - start_time); every record satisfies
start_time + duration ≤ total_duration, consecutive records are contiguous
(next start = previous start + previous duration, so no gaps or overlaps),
the first starts at 0 and the last ends exactly at total_duration; in
particular total_duration = 1500 with chunk_duration = 10 yields the three
chunks (0,600), (600,600), (1200,300). -/
theorem C1_chunk_planner :
    (∀ (T : ℚ) (cd : ℤ), 0 < T → 0 < cd →
      (chunkPlan T cd 1 none).length = (⌈T / ((chunk_seconds cd : ℤ) : ℚ)⌉).toNat
      ∧ (∀ k (hk : k < (chunkPlan T cd 1 none).length),
          (chunkPlan T cd 1 none)[k] =
            { index := (k : ℤ) + 1,
              start_time := (k : ℚ) * ((chunk_seconds cd : ℤ) : ℚ),
              duration := min ((chunk_seconds cd : ℤ) : ℚ)
                (T - (k : ℚ) * ((chunk_seconds cd : ℤ) : ℚ)) })
      ∧ (∀ k (hk : k < (chunkPlan T cd 1 none).length),
          ((chunkPlan T cd 1 none)[k]).start_time + ((chunkPlan T cd 1 none)[k]).duration ≤ T)
      ∧ (∀ k (hk : k + 1 < (chunkPlan T cd 1 none).length),
          ((chunkPlan T cd 1 none)[k + 1]).start_time
            = ((chunkPlan T cd 1 none)[k]).start_time + ((chunkPlan T cd 1 none)[k]).duration)
      ∧ (∀ h0 : 0 < (chunkPlan T cd 1 none).length,
          ((chunkPlan T cd 1 none)[0]).start_time = 0
          ∧ ((chunkPlan T cd 1 none)[(chunkPlan T cd 1 none).length - 1]).start_time
              + ((chunkPlan T cd 1 none)[(chunkPlan T cd 1 none).length - 1]).duration = T))
    ∧ chunkPlan 1500 10 1 none =
        [{ index := 1, start_time := 0, duration := 600 },
         { index := 2, start_time := 600, duration := 600 },
         { index := 3, start_time := 1200, duration := 300 }] := by
  constructor
  · intro T cd hT hcd
    set cs : ℚ := ((chunk_seconds cd : ℤ) : ℚ) with hcsdef
    have hcs : (0 : ℚ) < cs := by
      rw [hcsdef]
      exact_mod_cast Int.mul_pos hcd (by norm_num)
    have hlen : (chunkPlan T cd 1 none).length = (⌈T / cs⌉).toNat := by
      rw [chunkPlan_length]
      simp [totalChunks]
    have hceil : 0 < ⌈T / cs⌉ := Int.ceil_pos.mpr (div_pos hT hcs)
    have hkub : ∀ k : ℕ, (k : ℤ) < ⌈T / cs⌉ → (k : ℚ) * cs < T := by
      intro k hk
      have h1 : ((k : ℤ) : ℚ) < T / cs := Int.lt_ceil.mp hk
      rw [lt_div_iff₀ hcs] at h1
      exact_mod_cast h1
    have hTub : T ≤ (⌈T / cs⌉ : ℚ) * cs := by
      have h2 := Int.le_ceil (T / cs)
      rwa [div_le_iff₀ hcs] at h2
    have hget : ∀ k, ∀ hk : k < (chunkPlan T cd 1 none).length,
        (chunkPlan T cd 1 none)[k] =
          { index := (k : ℤ) + 1, start_time := (k : ℚ) * cs,
            duration := min cs (T - (k : ℚ) * cs) } := by
      intro k hk
      rw [chunkPlan_getElem T cd 1 none k hk]
      have h1 : (1 - 1 + (k : ℤ)) = (k : ℤ) := by omega
      rw [h1]
      simp only [Chunk.mk.injEq]
      refine ⟨by omega, ?_, ?_⟩ <;> (rw [hcsdef]; push_cast; rfl)
    refine ⟨hlen, hget, ?_, ?_, ?_⟩
    · intro k hk
      rw [hget k hk]
      have h2 := min_le_right cs (T - (k : ℚ) * cs)
      simp only
      linarith
    · intro k hk
      have hk2 : k < (chunkPlan T cd 1 none).length := by omega
      rw [hget (k + 1) hk, hget k hk2]
      simp only
      have hz : ((k + 1 : ℕ) : ℤ) < ⌈T / cs⌉ := by
        rw [hlen] at hk
        omega
      have h3 : ((k + 1 : ℕ) : ℚ) * cs < T := hkub (k + 1) hz
      have hmin : min cs (T - (k : ℚ) * cs) = cs := by
        apply min_eq_left
        push_cast at h3
        linarith
      rw [hmin]
      push_cast
      ring
    · intro h0
      constructor
      · rw [hget 0 h0]
        norm_num
      · have hkL : (chunkPlan T cd 1 none).length - 1 < (chunkPlan T cd 1 none).length := by
          omega
        rw [hget ((chunkPlan T cd 1 none).length - 1) hkL]
        simp only
        have hL1 : 1 ≤ (chunkPlan T cd 1 none).length := h0
        have hLZ : (((chunkPlan T cd 1 none).length : ℕ) : ℤ) = ⌈T / cs⌉ := by
          rw [hlen]
          omega
        have hLQ : (((chunkPlan T cd 1 none).length : ℕ) : ℚ) = ((⌈T / cs⌉ : ℤ) : ℚ) := by
          exact_mod_cast hLZ
        have hcast : (((chunkPlan T cd 1 none).length - 1 : ℕ) : ℚ)
            = (((chunkPlan T cd 1 none).length : ℕ) : ℚ) - 1 := by
          push_cast [Nat.cast_sub hL1]
          ring
        have hmin : min cs (T - (((chunkPlan T cd 1 none).length - 1 : ℕ) : ℚ) * cs)
            = T - (((chunkPlan T cd 1 none).length - 1 : ℕ) : ℚ) * cs := by
          apply min_eq_right
          rw [hcast, hLQ]
          have h4 : T ≤ ((⌈T / cs⌉ : ℤ) : ℚ) * cs := hTub
          nlinarith [hcs]
        rw [hmin]
        ring
  · have h3 : totalChunks 1500 10 1 none = 3 := by
      show ⌈(1500 : ℚ) / ((10 * 60 : ℤ) : ℚ)⌉ = 3
      rw [Int.ceil_eq_iff]
      norm_num
    have hr : rangeZ (1 - 1) 3 = [0, 1, 2] := rfl
    rw [chunkPlan, h3, hr]
    norm_num [Chunk.mk.injEq, chunk_seconds, min_def]

/-- Witness for C1: the general part applied at total_duration = 1500,
chunk_duration = 10. -/
theorem C1_chunk_planner_witness :
    (chunkPlan 1500 10 1 none).length = (⌈(1500 : ℚ) / ((chunk_seconds 10 : ℤ) : ℚ)⌉).toNat :=
  (C1_chunk_planner.1 1500 10 (by norm_num) (by norm_num)).1

/-- Claim C9: for every valid input (total_duration > 0, chunk_duration > 0,
start_chunk ≥ 1, max_chunks absent or positive), every planned chunk has a
strictly positive duration bounded by chunk_seconds, so no zero-length or
negative-length transform invocation is ever built. -/
theorem C9_chunk_durations_positive (T : ℚ) (cd sc : ℤ) (mc : Option ℤ)
    (hT : 0 < T) (hcd : 0 < cd) (hsc : 1 ≤ sc)
    (hmc : mc = none ∨ ∃ m, mc = some m ∧ 0 < m) :
    ∀ c ∈ chunkPlan T cd sc mc,
      0 < c.duration ∧ c.duration ≤ ((chunk_seconds cd : ℤ) : ℚ) := by
  intro c hc
  have hcs : (0 : ℚ) < ((chunk_seconds cd : ℤ) : ℚ) := by
    exact_mod_cast Int.mul_pos hcd (by norm_num)
  simp only [chunkPlan, List.mem_map] at hc
  obtain ⟨i, hi, rfl⟩ := hc
  rw [mem_rangeZ] at hi
  have hub : i < ⌈T / ((chunk_seconds cd : ℤ) : ℚ)⌉ :=
    lt_of_lt_of_le hi.2 (totalChunks_le_ceil T cd sc mc)
  have h1 : ((i : ℤ) : ℚ) < T / ((chunk_seconds cd : ℤ) : ℚ) := Int.lt_ceil.mp hub
  rw [lt_div_iff₀ hcs] at h1
  constructor
  · exact lt_min hcs (by linarith)
  · exact min_le_left _ _

/-- Witness for C9: the single chunk of the plan for total_duration = 1500,
chunk_duration = 10, start_chunk = 2, max_chunks = 1 has positive duration
bounded by chunk_seconds. -/
theorem C9_chunk_durations_positive_witness :
    0 < (Chunk.mk 2 600 600).duration
    ∧ (Chunk.mk 2 600 600).duration ≤ ((chunk_seconds 10 : ℤ) : ℚ) := by
  have h3 : totalChunks 1500 10 2 (some 1) = 2 := by
    have hc : ⌈(1500 : ℚ) / ((chunk_seconds 10 : ℤ) : ℚ)⌉ = 3 := by
      show ⌈(1500 : ℚ) / ((10 * 60 : ℤ) : ℚ)⌉ = 3
      rw [Int.ceil_eq_iff]
      norm_num
    simp only [totalChunks, hc]
    norm_num
  have hmem : Chunk.mk 2 600 600 ∈ chunkPlan 1500 10 2 (some 1) := by
    have hr : rangeZ (2 - 1) 2 = [1] := rfl
    rw [chunkPlan, h3, hr]
    norm_num [Chunk.mk.injEq, chunk_seconds, min_def]
  exact C9_chunk_durations_positive 1500 10 2 (some 1) (by norm_num) (by norm_num)
    (by norm_num) (Or.inr ⟨1, rfl, by norm_num⟩) (Chunk.mk 2 600 600) hmem

/-- Claim C5: when start_chunk exceeds the computed total_chunks (after any
max_chunks clamping), the chunk plan is empty and the run produces no events
at all: zero transform invocations, zero per-chunk error messages, and a
normal return with no abort message. -/
theorem C5_start_past_end_empty (T : ℚ) (cd : ℤ) (s : ℚ) (sc : ℤ) (mc : Option ℤ)
    (fails : ℤ → Bool) (hT : T ≠ 0) (hsc : totalChunks T cd sc mc < sc) :
    chunkPlan T cd sc mc = [] ∧ processAudiobook T cd s sc mc fails = [] := by
  have hplan : chunkPlan T cd sc mc = [] := by
    have h0 : (totalChunks T cd sc mc - (sc - 1)).toNat = 0 := by omega
    simp [chunkPlan, rangeZ, h0]
  refine ⟨hplan, ?_⟩
  rw [processAudiobook, if_neg hT, hplan]
  rfl

/-- Witness for C5: total_duration = 1500, chunk_duration = 10 gives 3
chunks; start_chunk = 5 exceeds them. -/
theorem C5_start_past_end_empty_witness :
    chunkPlan 1500 10 5 none = [] ∧ processAudiobook 1500 10 1 5 none (fun _ => false) = [] := by
  have h3 : totalChunks 1500 10 5 none = 3 := by
    show ⌈(1500 : ℚ) / ((10 * 60 : ℤ) : ℚ)⌉ = 3
    rw [Int.ceil_eq_iff]
    norm_num
  exact C5_start_past_end_empty 1500 10 1 5 none (fun _ => false) (by norm_num)
    (by rw [h3]; norm_num)

/-- Claim C6: the two precondition errors abort the whole run with a logged
message before any transform invocation: a zero duration probe yields only
the duration abort message; a failing speed validation (reached whenever the
plan is non-empty) yields only the speed abort message; in either condition
no transform event ever occurs. -/
theorem C6_preconditions_abort (T : ℚ) (cd : ℤ) (s : ℚ) (sc : ℤ) (mc : Option ℤ)
    (fails : ℤ → Bool) :
    (T = 0 → processAudiobook T cd s sc mc fails = [Event.log durAbortMsg])
    ∧ (T ≠ 0 → speedInvalid s = true → chunkPlan T cd sc mc ≠ [] →
        processAudiobook T cd s sc mc fails = [Event.log speedAbortMsg])
    ∧ ((T = 0 ∨ speedInvalid s = true) →
        ∀ c f, Event.transform c f ∉ processAudiobook T cd s sc mc fails) := by
  refine ⟨?_, ?_, ?_⟩
  · intro h
    rw [processAudiobook, if_pos h]
  · intro hT hs hne
    obtain ⟨c, rest, hcr⟩ := List.exists_cons_of_ne_nil hne
    rw [processAudiobook, if_neg hT, hcr]
    simp [runChunks, hs]
  · rintro (h | h) c f
    · rw [processAudiobook, if_pos h]
      simp
    · by_cases hT : T = 0
      · rw [processAudiobook, if_pos hT]
        simp
      · rw [processAudiobook, if_neg hT]
        cases hpl : chunkPlan T cd sc mc with
        | nil => exact List.not_mem_nil _
        | cons c0 rest => simp [runChunks, h]

/-- Witness for C6: a zero probe result aborts with the duration message;
speed_factor = 0.5 on a 100-second file aborts with the speed message. -/
theorem C6_preconditions_abort_witness :
    processAudiobook 0 10 (3 / 2) 1 none (fun _ => false) = [Event.log durAbortMsg]
    ∧ processAudiobook 100 10 (1 / 2) 1 none (fun _ => false) = [Event.log speedAbortMsg] := by
  constructor
  · exact (C6_preconditions_abort 0 10 (3 / 2) 1 none (fun _ => false)).1 rfl
  · apply (C6_preconditions_abort 100 10 (1 / 2) 1 none (fun _ => false)).2.1
    · norm_num
    · norm_num [speedInvalid, pymod]
    · have h1 : totalChunks 100 10 1 none = 1 := by
        show ⌈(100 : ℚ) / ((10 * 60 : ℤ) : ℚ)⌉ = 1
        rw [Int.ceil_eq_iff]
        norm_num
      have hr : rangeZ (1 - 1) 1 = [0] := rfl
      rw [chunkPlan, h1, hr]
      simp

/-- Counterexample to claim C2: speed_factor = 4 passes validation and is
not 1, yet its chain [2, 2, 0] has a stage outside [0.5, 2] and product 0,
not 4. -/
theorem C2_counterexample :
    speedInvalid 4 = false ∧ (4 : ℚ) ≠ 1 ∧
    ¬((∀ x ∈ tempoChain 4, 1 / 2 ≤ x ∧ x ≤ 2) ∧ (tempoChain 4).prod = 4) := by
  have hchain : tempoChain 4 = [2, 2, 0] := by
    norm_num [tempoChain, pymod]
    rfl
  refine ⟨by norm_num [speedInvalid, pymod], by norm_num, ?_⟩
  rintro ⟨hall, hprod⟩
  have h0 : (0 : ℚ) ∈ tempoChain 4 := by
    rw [hchain]
    simp
  have h2 := (hall 0 h0).1
  norm_num at h2

/-- Claim C2 as amended: for every speed_factor that passes validation, is
not 1.0, and lies in [0.5, 2.0], the chain is the single stage
[speed_factor], each multiplier lies in [0.5, 2.0], and the product equals
speed_factor (outside that range the product can deviate, e.g. 4.0 gives
[2.0, 2.0, 0.0]). -/
theorem C2_chain_product (s : ℚ) (hval : speedInvalid s = false) (hs1 : s ≠ 1)
    (hlo : 1 / 2 ≤ s) (hhi : s ≤ 2) :
    tempoChain s = [s] ∧ (∀ x ∈ tempoChain s, 1 / 2 ≤ x ∧ x ≤ 2)
    ∧ (tempoChain s).prod = s := by
  have hchain : tempoChain s = [s] := by
    unfold tempoChain
    rw [if_neg (not_lt.mpr hhi), if_neg (not_lt.mpr hlo)]
  refine ⟨hchain, ?_, ?_⟩
  · rw [hchain]
    intro x hx
    rw [List.mem_singleton] at hx
    subst hx
    exact ⟨hlo, hhi⟩
  · rw [hchain]
    simp

/-- Witness for the amended C2: speed_factor = 1.5. -/
theorem C2_chain_product_witness :
    tempoChain (3 / 2) = [3 / 2] ∧ (∀ x ∈ tempoChain (3 / 2), 1 / 2 ≤ x ∧ x ≤ 2)
    ∧ (tempoChain (3 / 2)).prod = 3 / 2 :=
  C2_chain_product (3 / 2) (by norm_num [speedInvalid, pymod]) (by norm_num) (by norm_num)
    (by norm_num)

/-- Counterexample to claim C3: the chain for speed_factor = 4.0 is not
[2.0, 2.0]. -/
theorem C3_counterexample : ¬ tempoChain 4 = [2, 2] := by
  have hchain : tempoChain 4 = [2, 2, 0] := by
    norm_num [tempoChain, pymod]
    rfl
  rw [hchain]
  simp

/-- Claim C3 as amended: for speed_factor = 4.0 the compiled chain is the
three-stage sequence [2.0, 2.0, 0.0] (the trailing stage is 4.0 mod 2 = 0),
whose product is 0, not 4. -/
theorem C3_chain_for_four : tempoChain 4 = [2, 2, 0] ∧ (tempoChain 4).prod = 0 := by
  constructor
  · norm_num [tempoChain, pymod]
    rfl
  · norm_num [tempoChain, pymod]

/-- Counterexample to claim C4: speed_factor = 0.5 lies in [0.5, 2.0] and is
not 1.0, yet validation fails ((1/0.5) mod 2 = 0), so the run is aborted. -/
theorem C4_counterexample :
    (1 / 2 : ℚ) ≤ 1 / 2 ∧ (1 / 2 : ℚ) ≤ 2 ∧ (1 / 2 : ℚ) ≠ 1
    ∧ speedInvalid (1 / 2) = true := by
  refine ⟨le_refl _, by norm_num, by norm_num, ?_⟩
  norm_num [speedInvalid, pymod]

/-- Claim C4 as amended: for every speed_factor with 0.5 < speed_factor ≤ 2
and speed_factor ≠ 1, validation passes and the filter chain is the single
stage [speed_factor]; for speed_factor = 1 the filter is omitted entirely
and validation passes; speed_factor = 0.5 itself is rejected by
validation. -/
theorem C4_single_stage :
    (∀ s : ℚ, 1 / 2 < s → s ≤ 2 → s ≠ 1 → speedInvalid s = false ∧ filterOf s = some [s])
    ∧ filterOf 1 = none ∧ speedInvalid 1 = false := by
  refine ⟨?_, by simp [filterOf], by norm_num [speedInvalid, pymod]⟩
  intro s h1 h2 h3
  have hs0 : (0 : ℚ) < s := by linarith
  have hinva : 1 / s < 2 := by
    rw [div_lt_iff₀ hs0]
    linarith
  have hinvb : (0 : ℚ) < 1 / s := by positivity
  have hfloor : ⌊(1 / s) / 2⌋ = 0 := by
    rw [Int.floor_eq_zero_iff, Set.mem_Ico]
    constructor
    · positivity
    · linarith
  have hpym : pymod (1 / s) 2 = 1 / s := by
    rw [pymod, hfloor]
    push_cast
    ring
  have hval : speedInvalid s = false := by
    unfold speedInvalid
    rw [hpym]
    simp only [Bool.or_eq_false_iff, decide_eq_false_iff_not, not_le]
    exact ⟨hs0, hinvb⟩
  refine ⟨hval, ?_⟩
  rw [filterOf, if_neg h3]
  have hc : tempoChain s = [s] := by
    unfold tempoChain
    rw [if_neg (not_lt.mpr h2), if_neg (not_lt.mpr (le_of_lt h1))]
  rw [hc]

/-- Witness for the amended C4: speed_factor = 1.5 passes validation with
the single-stage chain. -/
theorem C4_single_stage_witness :
    speedInvalid (3 / 2) = false ∧ filterOf (3 / 2) = some [(3 / 2 : ℚ)] :=
  C4_single_stage.1 (3 / 2) (by norm_num) (by norm_num) (by norm_num)

/-- Claim C7 evaluated at the failing input: a decode-failing file does NOT
contribute nothing — the loop has already written the header line and the
opening fence before `infile.read()` raises, so the output holds a partial
unterminated block, while the warning still claims the file was skipped; a
successfully read file contributes one complete header+content+footer
block. -/
theorem C7_decode_error_partial_block :
    (create_combined_file [("image.png", ReadOutcome.decodeError)]).1
      = fileBlockHeader "image.png" ++ fenceOpen
    ∧ (create_combined_file [("image.png", ReadOutcome.decodeError)]).1 ≠ ""
    ∧ (create_combined_file [("image.png", ReadOutcome.decodeError)]).2
      = ["Warning: Could not read image.png as text. Skipping."]
    ∧ (create_combined_file [("a.txt", ReadOutcome.ok "hi")]).1
      = fileBlockHeader "a.txt" ++ fenceOpen ++ "hi" ++ fenceClose := by
  refine ⟨by decide, by decide, by decide, by decide⟩

/-- Counterexample to claim C8: the path ".py" ends in ".py", yet the
classifier returns false — its pathlib suffix is empty (the dot is the
name's first character), and the content-type guess finds no extension
either, even with ".py" mapped to "text/x-python" in the table. -/
theorem C8_counterexample :
    List.isSuffixOf ".py".toList ".py".toList = true
    ∧ is_text_file ".py" text_extensions_main std_types_table = false := by
  decide

/-- Claim C8 as amended: the classifier returns true iff the lower-cased
pathlib suffix is in the allow-list or the path-based content-type guess
starts with "text/"; every path whose pathlib suffix lower-cases to .py,
.md, or .json is accepted regardless of the guess table (hence regardless of
file bytes, which the decision never reads); a path with an unknown binary
extension and a non-text guess is rejected. Paths merely ending in ".py"
with an empty pathlib suffix (hidden-file names like ".py") are not
covered. -/
theorem C8_classifier (p : String) (exts : List String) (table : List (String × String)) :
    (is_text_file p exts table = true ↔
      lowerStr (pathSuffix p) ∈ exts
      ∨ ∃ m, guess_type p table = some m ∧ List.isPrefixOf "text/".toList m.toList = true)
    ∧ (lowerStr (pathSuffix p) ∈ [".py", ".md", ".json"] →
        is_text_file p text_extensions_main table = true)
    ∧ is_text_file "program.exe" text_extensions_main std_types_table = false := by
  refine ⟨?_, ?_, by decide⟩
  · by_cases hm : lowerStr (pathSuffix p) ∈ exts
    · simp [is_text_file, hm]
    · cases hg : guess_type p table with
      | none => simp [is_text_file, hm, hg]
      | some m => simp [is_text_file, hm, hg]
  · intro hmem
    have hmain : lowerStr (pathSuffix p) ∈ text_extensions_main := by
      simp only [List.mem_cons, List.not_mem_nil, or_false] at hmem
      rcases hmem with h | h | h <;> (rw [h]; decide)
    simp [is_text_file, hmain]

/-- Witness for the amended C8: "src/x.PY" is classified as text with an
empty guess table. -/
theorem C8_classifier_witness :
    is_text_file "src/x.PY" text_extensions_main [] = true :=
  (C8_classifier "src/x.PY" text_extensions_main []).2.1 (by decide)

/-- Claim C10: when the external tool's stdout is non-empty after stripping
trailing whitespace but is not parseable as a float, `get_duration` raises
an unhandled exception instead of returning — in particular it does not
return zero, so the documented "duration unknown" abort path is never
taken. -/
theorem C10_unparseable_stdout_raises (stdout stderr : String) (parse : String → Option ℚ)
    (h1 : rstrip stdout ≠ "") (h2 : parse (rstrip stdout) = none) :
    (get_duration stdout stderr parse).1 = ProbeOutcome.raise
    ∧ ∀ d, (get_duration stdout stderr parse).1 ≠ ProbeOutcome.ok d := by
  have hda : get_duration stdout stderr parse
      = (ProbeOutcome.raise, ["Total duration: " ++ rstrip stdout ++ " seconds"]) := by
    rw [get_duration, if_pos h1, h2]
  rw [hda]
  exact ⟨rfl, fun d h => ProbeOutcome.noConfusion h⟩

/-- Witness for C10: stdout "abc" with a parser rejecting it. -/
theorem C10_unparseable_stdout_raises_witness :
    (get_duration "abc" "" (fun _ => none)).1 = ProbeOutcome.raise
    ∧ ∀ d, (get_duration "abc" "" (fun _ => none)).1 ≠ ProbeOutcome.ok d :=
  C10_unparseable_stdout_raises "abc" "" (fun _ => none) (by decide) rfl
